import Mathlib

/-!
Shallow embedding of `pkg/oci/authn/client.go` from falcoctl: the credential
resolution core of the authenticated OCI registry client.

The Go file defines:
  * `Options` — the configuration struct mutated by option functions;
  * `NewClient` — the factory that builds the HTTP transport and installs the
    `Credential` callback (cache lookup, optional auto-login, ordered provider
    scan with fail-fast, caching of the first successful provider);
  * the option constructors `WithAutoLogin`, `WithOAuthCredentials`,
    `WithGcpCredentials`, `WithCredentials`, `WithStore`,
    `WithClientTokenCache`, `WithInsecure`, and `EmptyCredentialFunc`.

Modelling choices, all directly traceable to the source:
  * `auth.Credential` (from oras-go) is a struct of four strings whose zero
    value is `auth.EmptyCredential`; we model it as such.
  * Go `error` results become `Option Err` (`none` = nil error).
  * `context.Context` is modelled as `Ctx`, carrying a heap `Nat → Credential`
    so that pointer dereference at call time (`WithCredentials` stores a
    `*auth.Credential` and dereferences it inside the provider closure) is
    expressible: a pointer is a `Nat`, and the value it holds at the moment of
    a call is `ctx.heap p`.
  * The `CredentialsFuncsCache` Go map is modelled as an association list with
    Go-map assignment semantics (overwrite).  Alongside the cached provider
    function we record its position in `CredentialsFuncs`; in the source the
    cached function is always the loop variable of the scan over
    `CredentialsFuncs`, so the index is pure instrumentation.
  * The `Credential` callback mutates `opt.CredentialsFuncsCache`; we embed it
    as a function returning the updated cache, together with observation
    fields: the positions of the providers it invoked, whether it called the
    auto-login handler, and the list of atomic accesses it performs on the
    shared cache map (used to state the synchronization claim: `client.go`
    contains no lock, so the action trace contains no lock/unlock action).
-/

/-- `auth.Credential` from oras-go: four string fields; the zero value is the
"no credential" sentinel `auth.EmptyCredential`. -/
structure Credential where
  username : String
  password : String
  refreshToken : String
  accessToken : String
deriving DecidableEq, Repr

/-- `auth.EmptyCredential`: the zero-valued credential. -/
def EmptyCredential : Credential := ⟨"", "", "", ""⟩

instance : Inhabited Credential := ⟨EmptyCredential⟩

/-- A Go `error` value (abstracted to its message); `none` models a nil error. -/
abbrev Err := String

/-- `context.Context`, extended with the heap that backs pointer dereference:
`heap p` is the credential value a `*auth.Credential` pointer `p` holds at the
moment of the call. -/
structure Ctx where
  heap : Nat → Credential

/-- The provider signature `func(context.Context, string) (auth.Credential, error)`. -/
abbrev Provider := Ctx → String → Credential × Option Err

/-- The `AutoLoginHandler` collaborator: exposes `Login(ctx, host) error`. -/
structure AutoLoginHandler where
  login : Ctx → String → Option Err

/-- An opaque handle for an `auth.Cache` token cache (passed through unmodified). -/
abbrev TokenCache := Nat

/-- The cache entry type: host key, and the cached provider function together
with its (instrumentation) position in `CredentialsFuncs`. -/
abbrev CacheEntry := String × Nat × Provider

/-- The `Options` struct of `client.go`. -/
structure Options where
  credentialsFuncsCache : List CacheEntry
  credentialsFuncs : List Provider
  autoLoginHandler : Option AutoLoginHandler
  clientTokenCache : Option TokenCache
  insecure : Bool

/-- Go map read `opt.CredentialsFuncsCache[reg]`. -/
def lookupCache (c : List CacheEntry) (h : String) : Option (Nat × Provider) :=
  match c.find? (fun e => e.1 == h) with
  | some e => some e.2
  | none => none

/-- Go map assignment `opt.CredentialsFuncsCache[reg] = credFunc`
(overwrites any existing entry for the key). -/
def insertCache (c : List CacheEntry) (h : String) (i : Nat) (f : Provider) :
    List CacheEntry :=
  (h, i, f) :: c.filter (fun e => e.1 != h)

/-- An atomic access to the shared `CredentialsFuncsCache` map, or a
lock/unlock of a synchronization primitive guarding it.  `client.go` declares
no such primitive, so the traces produced by the embedded callback contain no
`lockMu`/`unlockMu` action. -/
inductive CacheAction where
  | lockMu : CacheAction
  | unlockMu : CacheAction
  | readMap : String → CacheAction
  | writeMap : String → CacheAction
deriving DecidableEq, Repr

/-- Whether an action touches the shared map. -/
def CacheAction.isMapAccess : CacheAction → Bool
  | .readMap _ => true
  | .writeMap _ => true
  | _ => false

/-- Checks that every map access in the trace happens while the lock is held
(`d` = current lock depth). -/
def accessesLocked : List CacheAction → Nat → Bool
  | [], _ => true
  | .lockMu :: rest, d => accessesLocked rest (d + 1)
  | .unlockMu :: rest, d => accessesLocked rest (d - 1)
  | a :: rest, d => (!a.isMapAccess || decide (0 < d)) && accessesLocked rest d

/-- Result of one invocation of the `Credential` callback: the returned
credential and error, the updated `CredentialsFuncsCache`, and observations:
which provider positions were invoked, whether `AutoLoginHandler.Login` was
called, and the accesses performed on the shared cache map. -/
structure ResolveOut where
  cred : Credential
  err : Option Err
  cache : List CacheEntry
  invoked : List Nat
  loginCalled : Bool
  actions : List CacheAction

/-- The provider loop of the `Credential` callback (lines 93–104 of
`client.go`): walk the remaining providers in order starting at position `i`;
on a provider error return `(EmptyCredential, err)` and no cache update; on a
non-empty credential return it with the provider to cache; otherwise continue.
Returns (result, provider to cache (if any), positions invoked). -/
def scanProviders (ctx : Ctx) (reg : String) :
    Nat → List Provider → (Credential × Option Err) × Option (Nat × Provider) × List Nat
  | _, [] => ((EmptyCredential, none), none, [])
  | i, f :: rest =>
    let res := f ctx reg
    if res.2 ≠ none then ((EmptyCredential, res.2), none, [i])
    else if res.1 ≠ EmptyCredential then ((res.1, none), some (i, f), [i])
    else
      let t := scanProviders ctx reg (i + 1) rest
      (t.1, t.2.1, i :: t.2.2)

/-- The tail of the `Credential` callback after the cache miss and (possible)
auto-login: scan the providers and, on success, store the successful provider
in the cache. -/
def scanAndCache (opt : Options) (ctx : Ctx) (reg : String) (loginCalled : Bool) :
    ResolveOut :=
  let t := scanProviders ctx reg 0 opt.credentialsFuncs
  match t.2.1 with
  | some (i, f) =>
    ⟨t.1.1, t.1.2, insertCache opt.credentialsFuncsCache reg i f, t.2.2, loginCalled,
      [CacheAction.readMap reg, CacheAction.writeMap reg]⟩
  | none =>
    ⟨t.1.1, t.1.2, opt.credentialsFuncsCache, t.2.2, loginCalled,
      [CacheAction.readMap reg]⟩

/-- The `Credential` callback installed by `NewClient` (lines 79–107 of
`client.go`): try the cached provider first; otherwise run auto-login when
configured (failing fast on a login error); otherwise scan the providers in
order, remembering the first successful one. -/
def credentialCallback (opt : Options) (ctx : Ctx) (reg : String) : ResolveOut :=
  match lookupCache opt.credentialsFuncsCache reg with
  | some (i, f) =>
    let res := f ctx reg
    ⟨res.1, res.2, opt.credentialsFuncsCache, [i], false, [CacheAction.readMap reg]⟩
  | none =>
    match opt.autoLoginHandler with
    | some h =>
      match h.login ctx reg with
      | some e =>
        ⟨EmptyCredential, some e, opt.credentialsFuncsCache, [], true,
          [CacheAction.readMap reg]⟩
      | none => scanAndCache opt ctx reg true
    | none => scanAndCache opt ctx reg false

/-- A sequence of `Credential`-callback invocations against the same client:
each call sees the cache left by the previous one (the only field the callback
mutates). -/
def runResolves (opt : Options) : List (Ctx × String) → Options
  | [] => opt
  | c :: rest =>
    runResolves { opt with
      credentialsFuncsCache := (credentialCallback opt c.1 c.2).cache } rest

/-- `tls.Config` (only the field `client.go` sets). -/
structure TLSConfig where
  insecureSkipVerify : Bool
deriving DecidableEq, Repr

/-- The `http.Transport` built by `NewClient` (durations in seconds).
`tlsClientConfig = none` models a nil `TLSClientConfig`, i.e. default
certificate verification. -/
structure Transport where
  dialTimeoutSec : Nat
  dialKeepAliveSec : Nat
  forceAttemptHTTP2 : Bool
  maxIdleConns : Nat
  idleConnTimeoutSec : Nat
  tlsHandshakeTimeoutSec : Nat
  expectContinueTimeoutSec : Nat
  tlsClientConfig : Option TLSConfig
deriving DecidableEq, Repr

/-- The `auth.Client` assembled by `NewClient`: its transport, the token cache
passed through, the user agent set by `SetUserAgent`, and the final `Options`
value captured by the `Credential` callback (the callback's behaviour is
`credentialCallback resolverOptions`). -/
structure AuthClient where
  transport : Transport
  clientTokenCache : Option TokenCache
  userAgent : String
  resolverOptions : Options

/-- `falcoctlUserAgent` constant. -/
def falcoctlUserAgent : String := "falcoctl"

/-- `EmptyCredentialFunc`: provides empty auth credentials. -/
def EmptyCredentialFunc : Provider := fun _ _ => (EmptyCredential, none)

/-- `WithAutoLogin`: enables the client's auto-login feature. -/
def WithAutoLogin (handler : AutoLoginHandler) : Options → Options :=
  fun c => { c with autoLoginHandler := some handler }

/-- `WithOAuthCredentials` appends the provider obtained from
`NewOauthClientCredentialsStore().Credential`; that store lives outside
`client.go`, so the resulting provider is a parameter. -/
def WithOAuthCredentials (oauthCred : Provider) : Options → Options :=
  fun c => { c with credentialsFuncs := c.credentialsFuncs ++ [oauthCred] }

/-- `WithGcpCredentials` appends `GCPCredential` (defined outside `client.go`,
so passed as a parameter). -/
def WithGcpCredentials (gcpCred : Provider) : Options → Options :=
  fun c => { c with credentialsFuncs := c.credentialsFuncs ++ [gcpCred] }

/-- The closure `func(context.Context, string) (auth.Credential, error)
{ return *cred, nil }` built by `WithCredentials`: it captures the pointer and
dereferences it when called, so it yields the value the pointer holds in the
call-time context. -/
def staticCredFunc (cred : Nat) : Provider :=
  fun ctx _ => (ctx.heap cred, none)

/-- `WithCredentials`: adds a static credential function to the client
(`cred` is the captured `*auth.Credential` pointer). -/
def WithCredentials (cred : Nat) : Options → Options :=
  fun c => { c with credentialsFuncs := c.credentialsFuncs ++ [staticCredFunc cred] }

/-- `WithStore` appends `credentials.Credential(store)` (external to
`client.go`, so the resulting provider is a parameter). -/
def WithStore (storeCred : Provider) : Options → Options :=
  fun c => { c with credentialsFuncs := c.credentialsFuncs ++ [storeCred] }

/-- `WithClientTokenCache`: adds a token cache to the `auth.Client`. -/
def WithClientTokenCache (cache : TokenCache) : Options → Options :=
  fun c => { c with clientTokenCache := some cache }

/-- `WithInsecure`: configures the client to skip TLS verification. -/
def WithInsecure : Options → Options :=
  fun c => { c with insecure := true }

/-- The zero-valued `Options` with an initialized empty cache, as built at the
top of `NewClient`. -/
def defaultOptions : Options :=
  { credentialsFuncsCache := []
    credentialsFuncs := []
    autoLoginHandler := none
    clientTokenCache := none
    insecure := false }

/-- Application of the option list: `for _, o := range options { o(opt) }`. -/
def applyOptions (options : List (Options → Options)) : Options :=
  options.foldl (fun o f => f o) defaultOptions

/-- `NewClient`: applies the options, builds the transport (30s dial timeout
and keep-alive, HTTP/2 preference, 100 max idle connections, 90s idle-conn
timeout, 10s TLS handshake timeout, 1s expect-continue timeout, TLS
verification skipped only when `opt.Insecure`), and assembles the client with
the `Credential` callback over the final options and the `falcoctl` user
agent. -/
def NewClient (options : List (Options → Options)) : AuthClient :=
  let opt := applyOptions options
  { transport :=
      { dialTimeoutSec := 30
        dialKeepAliveSec := 30
        forceAttemptHTTP2 := true
        maxIdleConns := 100
        idleConnTimeoutSec := 90
        tlsHandshakeTimeoutSec := 10
        expectContinueTimeoutSec := 1
        tlsClientConfig := if opt.insecure then some ⟨true⟩ else none }
    clientTokenCache := opt.clientTokenCache
    userAgent := falcoctlUserAgent
    resolverOptions := opt }

/-- Whether the client's transport skips TLS certificate verification
(a nil `TLSClientConfig` verifies certificates). -/
def skipsTLSVerify (c : AuthClient) : Bool :=
  match c.transport.tlsClientConfig with
  | some cfg => cfg.insecureSkipVerify
  | none => false

/-! ### A small concrete client used to instantiate the theorems -/

/-- A context whose heap holds the empty credential everywhere. -/
def witCtx : Ctx := ⟨fun _ => EmptyCredential⟩

/-- A concrete token credential. -/
def witCredT1 : Credential := ⟨"", "", "", "T1"⟩

/-- A concrete basic-auth credential. -/
def witCredUP : Credential := ⟨"user", "pass", "", ""⟩

/-- A provider that always answers "no credential". -/
def witNoneProvider : Provider := fun _ _ => (EmptyCredential, none)

/-- A provider that always returns the token credential. -/
def witTokenProvider : Provider := fun _ _ => (witCredT1, none)

/-- A provider that always returns the basic-auth credential. -/
def witBasicProvider : Provider := fun _ _ => (witCredUP, none)

/-- A provider that always fails. -/
def witErrProvider : Provider := fun _ _ => (EmptyCredential, some "disk read failed")

/-- A client configuration with a no-credential provider followed by a token
provider (the spec's Scenario A). -/
def witOptA : Options :=
  { defaultOptions with credentialsFuncs := [witNoneProvider, witTokenProvider] }

/-- `witOptA` after a first resolution of "reg.example.com" has filled the cache. -/
def witOptA' : Options :=
  { witOptA with
    credentialsFuncsCache := (credentialCallback witOptA witCtx "reg.example.com").cache }

/-- A client configuration whose first provider fails (the spec's Scenario C),
with a provider after it. -/
def witOptC : Options :=
  { defaultOptions with credentialsFuncs := [witNoneProvider, witErrProvider, witTokenProvider] }

/-- A client configuration with a failing auto-login handler. -/
def witOptL : Options :=
  { witOptA with autoLoginHandler := some ⟨fun _ _ => some "login failed"⟩ }

/-- A three-provider configuration: no-credential, then success, then another
provider that must never be reached (the order-preservation example). -/
def witOptOrd : Options :=
  { defaultOptions with
    credentialsFuncs := [witNoneProvider, witTokenProvider, witBasicProvider] }

/-! ### Basic lemmas about the scan, the cache and `runResolves` -/

theorem scanProviders_nil (ctx : Ctx) (reg : String) (i : Nat) :
    scanProviders ctx reg i [] = ((EmptyCredential, none), none, []) := rfl

theorem scanProviders_cons_err (ctx : Ctx) (reg : String) (i : Nat) (f : Provider)
    (rest : List Provider) (c : Credential) (e : Err) (hf : f ctx reg = (c, some e)) :
    scanProviders ctx reg i (f :: rest) = ((EmptyCredential, some e), none, [i]) := by
  simp [scanProviders, hf]

theorem scanProviders_cons_success (ctx : Ctx) (reg : String) (i : Nat) (f : Provider)
    (rest : List Provider) (c : Credential) (hf : f ctx reg = (c, none))
    (hc : c ≠ EmptyCredential) :
    scanProviders ctx reg i (f :: rest) = ((c, none), some (i, f), [i]) := by
  simp [scanProviders, hf, hc]

theorem scanProviders_cons_empty (ctx : Ctx) (reg : String) (i : Nat) (f : Provider)
    (rest : List Provider) (hf : f ctx reg = (EmptyCredential, none)) :
    scanProviders ctx reg i (f :: rest) =
      ((scanProviders ctx reg (i + 1) rest).1,
       (scanProviders ctx reg (i + 1) rest).2.1,
       i :: (scanProviders ctx reg (i + 1) rest).2.2) := by
  simp [scanProviders, hf]

theorem scanProviders_all_empty (ctx : Ctx) (reg : String) :
    ∀ (l : List Provider) (i : Nat), (∀ f ∈ l, f ctx reg = (EmptyCredential, none)) →
      scanProviders ctx reg i l = ((EmptyCredential, none), none, List.range' i l.length)
  | [], i, _ => by simp [scanProviders_nil]
  | f :: rest, i, hall => by
    rw [scanProviders_cons_empty ctx reg i f rest (hall f (List.mem_cons_self f rest)),
      scanProviders_all_empty ctx reg rest (i + 1)
        (fun g hg => hall g (List.mem_cons_of_mem f hg))]
    simp [List.range'_succ]

theorem scanProviders_append_empty (ctx : Ctx) (reg : String) :
    ∀ (l₁ l₂ : List Provider) (i : Nat), (∀ f ∈ l₁, f ctx reg = (EmptyCredential, none)) →
      scanProviders ctx reg i (l₁ ++ l₂) =
        ((scanProviders ctx reg (i + l₁.length) l₂).1,
         (scanProviders ctx reg (i + l₁.length) l₂).2.1,
         List.range' i l₁.length ++ (scanProviders ctx reg (i + l₁.length) l₂).2.2)
  | [], l₂, i, _ => by simp
  | f :: rest, l₂, i, hall => by
    rw [List.cons_append,
      scanProviders_cons_empty ctx reg i f (rest ++ l₂) (hall f (List.mem_cons_self f rest)),
      scanProviders_append_empty ctx reg rest l₂ (i + 1)
        (fun g hg => hall g (List.mem_cons_of_mem f hg))]
    simp [List.range'_succ, Nat.add_assoc, Nat.add_comm 1 rest.length]

theorem scanProviders_cache_sound (ctx : Ctx) (reg : String) :
    ∀ (l : List Provider) (i j : Nat) (f : Provider),
      (scanProviders ctx reg i l).2.1 = some (j, f) →
      ∃ k, l.get? k = some f ∧ j = i + k ∧ (f ctx reg).2 = none ∧
        (f ctx reg).1 ≠ EmptyCredential
  | [], i, j, f, h => by simp [scanProviders_nil] at h
  | g :: rest, i, j, f, h => by
    cases hv : g ctx reg with
    | mk c oe =>
      cases oe with
      | some e =>
        rw [scanProviders_cons_err ctx reg i g rest c e hv] at h
        simp at h
      | none =>
        by_cases hc : c = EmptyCredential
        · rw [scanProviders_cons_empty ctx reg i g rest (by rw [hv, hc])] at h
          simp only at h
          obtain ⟨k, hget, hj, hnone, hne⟩ :=
            scanProviders_cache_sound ctx reg rest (i + 1) j f h
          exact ⟨k + 1, by simpa using hget, by omega, hnone, hne⟩
        · rw [scanProviders_cons_success ctx reg i g rest c hv hc] at h
          simp only [Option.some_inj, Prod.mk.injEq] at h
          obtain ⟨hj, hf⟩ := h
          subst hf
          exact ⟨0, by simp, by omega, by rw [hv], by rw [hv]; exact hc⟩

theorem lookupCache_nil (h : String) : lookupCache [] h = none := rfl

theorem lookupCache_insert_self (c : List CacheEntry) (h : String) (i : Nat) (f : Provider) :
    lookupCache (insertCache c h i f) h = some (i, f) := by
  simp [lookupCache, insertCache, List.find?]

theorem lookupCache_insert_ne (c : List CacheEntry) (h h' : String) (i : Nat) (f : Provider)
    (hne : h' ≠ h) :
    lookupCache (insertCache c h i f) h' = lookupCache c h' := by
  unfold lookupCache insertCache
  rw [List.find?_cons_of_neg _ (by simp [Ne.symm hne])]
  induction c with
  | nil => simp
  | cons e rest ih =>
    by_cases he : e.1 = h
    · rw [List.filter_cons_of_neg (by simp [he]),
        List.find?_cons_of_neg _ (by simp [he, Ne.symm hne])]
      exact ih
    · rw [List.filter_cons_of_pos (by simp [he])]
      by_cases he' : e.1 = h'
      · rw [List.find?_cons_of_pos _ (by simp [he']),
          List.find?_cons_of_pos _ (by simp [he'])]
      · rw [List.find?_cons_of_neg _ (by simp [he']),
          List.find?_cons_of_neg _ (by simp [he'])]
        exact ih

theorem mem_insertCache (c : List CacheEntry) (h : String) (i : Nat) (f : Provider)
    (e : CacheEntry) (he : e ∈ insertCache c h i f) : e = (h, i, f) ∨ e ∈ c := by
  rcases List.mem_cons.mp he with h1 | h2
  · exact Or.inl h1
  · exact Or.inr (List.mem_of_mem_filter h2)

theorem insertCache_keys_nodup (c : List CacheEntry) (h : String) (i : Nat) (f : Provider)
    (hn : (c.map (fun e => e.1)).Nodup) :
    ((insertCache c h i f).map (fun e => e.1)).Nodup := by
  unfold insertCache
  rw [List.map_cons, List.nodup_cons]
  constructor
  · intro hmem
    obtain ⟨e, hemem, heq⟩ := List.mem_map.mp hmem
    have := List.of_mem_filter hemem
    simp [heq] at this
  · exact hn.sublist ((List.filter_sublist c).map (fun e => e.1))

theorem credentialCallback_cache_hit (opt : Options) (ctx : Ctx) (reg : String)
    (i : Nat) (f : Provider) (hhit : lookupCache opt.credentialsFuncsCache reg = some (i, f)) :
    credentialCallback opt ctx reg =
      ⟨(f ctx reg).1, (f ctx reg).2, opt.credentialsFuncsCache, [i], false,
        [CacheAction.readMap reg]⟩ := by
  simp [credentialCallback, hhit]

theorem scanAndCache_cache_step (opt : Options) (ctx : Ctx) (reg : String) (b : Bool) :
    (scanAndCache opt ctx reg b).cache = opt.credentialsFuncsCache ∨
    ∃ i f, (scanAndCache opt ctx reg b).cache = insertCache opt.credentialsFuncsCache reg i f ∧
      opt.credentialsFuncs.get? i = some f ∧ (f ctx reg).2 = none ∧
      (f ctx reg).1 ≠ EmptyCredential := by
  unfold scanAndCache
  cases hs : (scanProviders ctx reg 0 opt.credentialsFuncs).2.1 with
  | none => simp [hs]
  | some p =>
    obtain ⟨k, hget, hj, hnone, hne⟩ :=
      scanProviders_cache_sound ctx reg opt.credentialsFuncs 0 p.1 p.2 (by rw [hs])
    exact Or.inr ⟨p.1, p.2, by simp [hs], by rw [hj, Nat.zero_add]; exact hget, hnone, hne⟩

theorem credentialCallback_cache_step (opt : Options) (ctx : Ctx) (reg : String) :
    (credentialCallback opt ctx reg).cache = opt.credentialsFuncsCache ∨
    (lookupCache opt.credentialsFuncsCache reg = none ∧
      ∃ i f, (credentialCallback opt ctx reg).cache =
          insertCache opt.credentialsFuncsCache reg i f ∧
        opt.credentialsFuncs.get? i = some f ∧ (f ctx reg).2 = none ∧
        (f ctx reg).1 ≠ EmptyCredential) := by
  cases hl : lookupCache opt.credentialsFuncsCache reg with
  | some p =>
    obtain ⟨i, f⟩ := p
    left
    simp [credentialCallback, hl]
  | none =>
    cases hh : opt.autoLoginHandler with
    | none =>
      have h := scanAndCache_cache_step opt ctx reg false
      simpa [credentialCallback, hl, hh] using h
    | some hd =>
      cases hlg : hd.login ctx reg with
      | some e =>
        left
        simp [credentialCallback, hl, hh, hlg]
      | none =>
        have h := scanAndCache_cache_step opt ctx reg true
        simpa [credentialCallback, hl, hh, hlg] using h

theorem credentialCallback_lookup_mono (opt : Options) (ctx : Ctx) (reg h : String)
    (x : Nat × Provider) (hx : lookupCache opt.credentialsFuncsCache h = some x) :
    lookupCache (credentialCallback opt ctx reg).cache h = some x := by
  rcases credentialCallback_cache_step opt ctx reg with h1 | ⟨hmiss, i, f, heq, _⟩
  · rw [h1]; exact hx
  · rw [heq]
    by_cases hh : h = reg
    · subst hh; rw [hx] at hmiss; cases hmiss
    · rw [lookupCache_insert_ne _ _ _ _ _ hh]; exact hx

theorem credentialCallback_keys_nodup (opt : Options) (ctx : Ctx) (reg : String)
    (hn : (opt.credentialsFuncsCache.map (fun e => e.1)).Nodup) :
    (((credentialCallback opt ctx reg).cache).map (fun e => e.1)).Nodup := by
  rcases credentialCallback_cache_step opt ctx reg with h1 | ⟨_, i, f, heq, _⟩
  · rw [h1]; exact hn
  · rw [heq]; exact insertCache_keys_nodup _ _ _ _ hn

theorem credentialCallback_mem_cache (opt : Options) (ctx : Ctx) (reg : String)
    (e : CacheEntry) (he : e ∈ (credentialCallback opt ctx reg).cache) :
    e ∈ opt.credentialsFuncsCache ∨
    (e.1 = reg ∧ opt.credentialsFuncs.get? e.2.1 = some e.2.2 ∧
      (e.2.2 ctx reg).2 = none ∧ (e.2.2 ctx reg).1 ≠ EmptyCredential) := by
  rcases credentialCallback_cache_step opt ctx reg with h1 | ⟨_, i, f, heq, hget, hnone, hne⟩
  · rw [h1] at he; exact Or.inl he
  · rw [heq] at he
    rcases mem_insertCache _ _ _ _ _ he with h2 | h3
    · subst h2; exact Or.inr ⟨rfl, hget, hnone, hne⟩
    · exact Or.inl h3

theorem runResolves_nil (opt : Options) : runResolves opt [] = opt := rfl

theorem runResolves_cons (opt : Options) (c : Ctx × String) (calls : List (Ctx × String)) :
    runResolves opt (c :: calls) =
      runResolves { opt with credentialsFuncsCache := (credentialCallback opt c.1 c.2).cache }
        calls := rfl

theorem runResolves_append (opt : Options) :
    ∀ (a b : List (Ctx × String)), runResolves opt (a ++ b) = runResolves (runResolves opt a) b
  | [], b => rfl
  | c :: a, b => by
    rw [List.cons_append, runResolves_cons, runResolves_cons]
    exact runResolves_append _ a b

theorem runResolves_funcs (opt : Options) :
    ∀ calls : List (Ctx × String), (runResolves opt calls).credentialsFuncs = opt.credentialsFuncs
  | [] => rfl
  | _ :: calls => runResolves_funcs _ calls

theorem runResolves_lookup_mono (x : Nat × Provider) (h : String) :
    ∀ (calls : List (Ctx × String)) (opt : Options),
      lookupCache opt.credentialsFuncsCache h = some x →
      lookupCache (runResolves opt calls).credentialsFuncsCache h = some x
  | [], opt, hx => hx
  | c :: calls, opt, hx => by
    rw [runResolves_cons]
    exact runResolves_lookup_mono x h calls _ (credentialCallback_lookup_mono opt c.1 c.2 h x hx)

theorem runResolves_keys_nodup :
    ∀ (calls : List (Ctx × String)) (opt : Options),
      (opt.credentialsFuncsCache.map (fun e => e.1)).Nodup →
      ((runResolves opt calls).credentialsFuncsCache.map (fun e => e.1)).Nodup
  | [], opt, hn => hn
  | c :: calls, opt, hn => by
    rw [runResolves_cons]
    exact runResolves_keys_nodup calls _ (credentialCallback_keys_nodup opt c.1 c.2 hn)

theorem runResolves_mem_cache :
    ∀ (calls : List (Ctx × String)) (opt : Options) (e : CacheEntry),
      e ∈ (runResolves opt calls).credentialsFuncsCache →
      e ∈ opt.credentialsFuncsCache ∨
      ∃ c ∈ calls, c.2 = e.1 ∧ opt.credentialsFuncs.get? e.2.1 = some e.2.2 ∧
        (e.2.2 c.1 e.1).2 = none ∧ (e.2.2 c.1 e.1).1 ≠ EmptyCredential
  | [], opt, e, he => Or.inl he
  | c :: calls, opt, e, he => by
    rw [runResolves_cons] at he
    rcases runResolves_mem_cache calls _ e he with h1 | ⟨c', hc', h2⟩
    · rcases credentialCallback_mem_cache opt c.1 c.2 e h1 with h3 | ⟨hreg, hget, hnone, hne⟩
      · exact Or.inl h3
      · exact Or.inr ⟨c, List.mem_cons_self c calls, hreg.symm, hget,
          by rw [hreg]; exact hnone, by rw [hreg]; exact hne⟩
    · exact Or.inr ⟨c', List.mem_cons_of_mem c hc', h2⟩

theorem credentialCallback_scan (opt : Options) (ctx : Ctx) (reg : String)
    (hmiss : lookupCache opt.credentialsFuncsCache reg = none)
    (hlogin : ∀ hd, opt.autoLoginHandler = some hd → hd.login ctx reg = none) :
    credentialCallback opt ctx reg = scanAndCache opt ctx reg opt.autoLoginHandler.isSome := by
  cases hh : opt.autoLoginHandler with
  | none => simp [credentialCallback, hmiss, hh]
  | some hd => simp [credentialCallback, hmiss, hh, hlogin hd hh]

theorem credentialCallback_actions (opt : Options) (ctx : Ctx) (reg : String) :
    (credentialCallback opt ctx reg).actions = [CacheAction.readMap reg] ∨
    (credentialCallback opt ctx reg).actions =
      [CacheAction.readMap reg, CacheAction.writeMap reg] := by
  cases hl : lookupCache opt.credentialsFuncsCache reg with
  | some p =>
    obtain ⟨i, f⟩ := p
    left
    simp [credentialCallback, hl]
  | none =>
    have hsc : ∀ b : Bool, (scanAndCache opt ctx reg b).actions = [CacheAction.readMap reg] ∨
        (scanAndCache opt ctx reg b).actions =
          [CacheAction.readMap reg, CacheAction.writeMap reg] := by
      intro b
      unfold scanAndCache
      cases hs : (scanProviders ctx reg 0 opt.credentialsFuncs).2.1 with
      | none => simp [hs]
      | some p => simp [hs]
    cases hh : opt.autoLoginHandler with
    | none => simpa [credentialCallback, hl, hh] using hsc false
    | some hd =>
      cases hlg : hd.login ctx reg with
      | some e =>
        left
        simp [credentialCallback, hl, hh, hlg]
      | none => simpa [credentialCallback, hl, hh, hlg] using hsc true

/-! ### Claim theorems -/

/-- C1: Cache short-circuit — if a prior `Resolve(ctx₁, h)` on an uncached
host ended with provider `i` (function `f`) in the cache (which is exactly
what happens when it succeeds via provider `i`), then any subsequent
`Resolve(ctx₂, h)` invokes only provider `i`, returns exactly that provider's
result (credential or error), does not call the auto-login handler, invokes no
other provider, and leaves the cache unchanged; moreover the cached function
really is the configured provider at position `i`. -/
theorem cache_short_circuit (opt opt' : Options) (ctx₁ ctx₂ : Ctx) (h : String)
    (i : Nat) (f : Provider)
    (hmiss : lookupCache opt.credentialsFuncsCache h = none)
    (hcached : lookupCache (credentialCallback opt ctx₁ h).cache h = some (i, f))
    (hopt' : opt' =
      { opt with credentialsFuncsCache := (credentialCallback opt ctx₁ h).cache }) :
    (credentialCallback opt' ctx₂ h).cred = (f ctx₂ h).1 ∧
    (credentialCallback opt' ctx₂ h).err = (f ctx₂ h).2 ∧
    (credentialCallback opt' ctx₂ h).invoked = [i] ∧
    (credentialCallback opt' ctx₂ h).loginCalled = false ∧
    (credentialCallback opt' ctx₂ h).cache = (credentialCallback opt ctx₁ h).cache ∧
    opt.credentialsFuncs.get? i = some f := by
  subst hopt'
  rw [credentialCallback_cache_hit _ ctx₂ h i f hcached]
  refine ⟨rfl, rfl, rfl, rfl, rfl, ?_⟩
  rcases credentialCallback_cache_step opt ctx₁ h with h1 | ⟨_, j, g, heq, hget, _, _⟩
  · rw [h1, hmiss] at hcached; cases hcached
  · rw [heq, lookupCache_insert_self] at hcached
    simp only [Option.some_inj, Prod.mk.injEq] at hcached
    obtain ⟨hj, hf⟩ := hcached
    subst hj; subst hf
    exact hget

/-- Witness for C1: Scenario A — providers = [no-credential, token]; the first
call for "reg.example.com" caches provider 1; the second call invokes only
provider 1 and returns its token. -/
theorem cache_short_circuit_witness :
    (credentialCallback witOptA' witCtx "reg.example.com").cred =
      (witTokenProvider witCtx "reg.example.com").1 ∧
    (credentialCallback witOptA' witCtx "reg.example.com").err =
      (witTokenProvider witCtx "reg.example.com").2 ∧
    (credentialCallback witOptA' witCtx "reg.example.com").invoked = [1] ∧
    (credentialCallback witOptA' witCtx "reg.example.com").loginCalled = false ∧
    (credentialCallback witOptA' witCtx "reg.example.com").cache =
      (credentialCallback witOptA witCtx "reg.example.com").cache ∧
    witOptA.credentialsFuncs.get? 1 = some witTokenProvider :=
  cache_short_circuit witOptA witOptA' witCtx witCtx "reg.example.com" 1
    witTokenProvider rfl rfl rfl

/-- C5: Auto-login gating — for an uncached host, when an auto-login handler
is configured and its `Login(ctx, host)` returns a non-nil error, `Resolve`
returns that error with the empty-credential sentinel, invokes no provider at
all, and leaves the cache unchanged. -/
theorem autologin_gating (opt : Options) (ctx : Ctx) (h : String)
    (hd : AutoLoginHandler) (e : Err)
    (hmiss : lookupCache opt.credentialsFuncsCache h = none)
    (hhd : opt.autoLoginHandler = some hd)
    (hfail : hd.login ctx h = some e) :
    (credentialCallback opt ctx h).cred = EmptyCredential ∧
    (credentialCallback opt ctx h).err = some e ∧
    (credentialCallback opt ctx h).invoked = [] ∧
    (credentialCallback opt ctx h).loginCalled = true ∧
    (credentialCallback opt ctx h).cache = opt.credentialsFuncsCache := by
  simp [credentialCallback, hmiss, hhd, hfail]

/-- Witness for C5: the failing-login client refuses to consult its two
providers for "z.io" and surfaces the login error. -/
theorem autologin_gating_witness :
    (credentialCallback witOptL witCtx "z.io").cred = EmptyCredential ∧
    (credentialCallback witOptL witCtx "z.io").err = some "login failed" ∧
    (credentialCallback witOptL witCtx "z.io").invoked = [] ∧
    (credentialCallback witOptL witCtx "z.io").loginCalled = true ∧
    (credentialCallback witOptL witCtx "z.io").cache = witOptL.credentialsFuncsCache :=
  autologin_gating witOptL witCtx "z.io" ⟨fun _ _ => some "login failed"⟩
    "login failed" rfl rfl rfl

/-- C3: Fail-fast with cache atomicity — for an uncached host whose scan is
reached (auto-login absent or successful), if the providers are `front`
(all answering "no credential") followed by a provider `p` returning a non-nil
error, then `Resolve` returns that error with the empty-credential sentinel,
invokes exactly the providers `0 .. front.length` in order (none after the
failing one), and leaves the cache unchanged. -/
theorem fail_fast (opt : Options) (ctx : Ctx) (h : String)
    (front back : List Provider) (p : Provider) (c : Credential) (e : Err)
    (hmiss : lookupCache opt.credentialsFuncsCache h = none)
    (hlogin : ∀ hd, opt.autoLoginHandler = some hd → hd.login ctx h = none)
    (hfuncs : opt.credentialsFuncs = front ++ p :: back)
    (hfront : ∀ f ∈ front, f ctx h = (EmptyCredential, none))
    (hp : p ctx h = (c, some e)) :
    (credentialCallback opt ctx h).cred = EmptyCredential ∧
    (credentialCallback opt ctx h).err = some e ∧
    (credentialCallback opt ctx h).cache = opt.credentialsFuncsCache ∧
    (credentialCallback opt ctx h).invoked = List.range' 0 (front.length + 1) := by
  rw [credentialCallback_scan opt ctx h hmiss hlogin]
  unfold scanAndCache
  rw [hfuncs, scanProviders_append_empty ctx h front (p :: back) 0 hfront,
    scanProviders_cons_err ctx h (0 + front.length) p back c e hp]
  simp [List.range'_1_concat]

/-- Witness for C3: Scenario C — providers = [none, failing, token] for host
"y.io": the error "disk read failed" is returned, provider 2 is never invoked,
and the cache stays empty. -/
theorem fail_fast_witness :
    (credentialCallback witOptC witCtx "y.io").cred = EmptyCredential ∧
    (credentialCallback witOptC witCtx "y.io").err = some "disk read failed" ∧
    (credentialCallback witOptC witCtx "y.io").cache = witOptC.credentialsFuncsCache ∧
    (credentialCallback witOptC witCtx "y.io").invoked = List.range' 0 ([witNoneProvider].length + 1) :=
  fail_fast witOptC witCtx "y.io" [witNoneProvider] [witTokenProvider]
    witErrProvider EmptyCredential "disk read failed" rfl
    (fun hd hhd => by cases hhd) rfl
    (fun f hf => by
      rw [List.mem_singleton] at hf
      rw [hf]
      rfl) rfl

/-- C4: Order preservation — for an uncached host whose scan is reached, with
providers `front` (all answering "no credential") followed by a provider `p`
returning a non-empty credential `c`, `Resolve` invokes exactly providers
`0 .. front.length` in configured order (providers after the first success,
such as a third provider after an empty first and successful second, are never
invoked), returns `c` with a nil error, and caches `p` for the host at
position `front.length`. -/
theorem order_preservation (opt : Options) (ctx : Ctx) (h : String)
    (front back : List Provider) (p : Provider) (c : Credential)
    (hmiss : lookupCache opt.credentialsFuncsCache h = none)
    (hlogin : ∀ hd, opt.autoLoginHandler = some hd → hd.login ctx h = none)
    (hfuncs : opt.credentialsFuncs = front ++ p :: back)
    (hfront : ∀ f ∈ front, f ctx h = (EmptyCredential, none))
    (hp : p ctx h = (c, none)) (hc : c ≠ EmptyCredential) :
    (credentialCallback opt ctx h).cred = c ∧
    (credentialCallback opt ctx h).err = none ∧
    (credentialCallback opt ctx h).invoked = List.range' 0 (front.length + 1) ∧
    (credentialCallback opt ctx h).cache =
      insertCache opt.credentialsFuncsCache h front.length p ∧
    lookupCache (credentialCallback opt ctx h).cache h = some (front.length, p) := by
  rw [credentialCallback_scan opt ctx h hmiss hlogin]
  unfold scanAndCache
  rw [hfuncs, scanProviders_append_empty ctx h front (p :: back) 0 hfront,
    scanProviders_cons_success ctx h (0 + front.length) p back c hp hc]
  refine ⟨by simp, by simp, by simp [List.range'_1_concat], by simp, ?_⟩
  simp only [Nat.zero_add]
  exact lookupCache_insert_self _ _ _ _

/-- Witness for C4: providers = [none, token, basic] for "reg.example.com":
only providers 0 and 1 run, provider 2 is never invoked, the token is
returned, and provider 1 is cached for the host. -/
theorem order_preservation_witness :
    (credentialCallback witOptOrd witCtx "reg.example.com").cred = witCredT1 ∧
    (credentialCallback witOptOrd witCtx "reg.example.com").err = none ∧
    (credentialCallback witOptOrd witCtx "reg.example.com").invoked =
      List.range' 0 ([witNoneProvider].length + 1) ∧
    (credentialCallback witOptOrd witCtx "reg.example.com").cache =
      insertCache witOptOrd.credentialsFuncsCache "reg.example.com" [witNoneProvider].length
        witTokenProvider ∧
    lookupCache (credentialCallback witOptOrd witCtx "reg.example.com").cache
      "reg.example.com" = some ([witNoneProvider].length, witTokenProvider) :=
  order_preservation witOptOrd witCtx "reg.example.com" [witNoneProvider]
    [witBasicProvider] witTokenProvider witCredT1 rfl
    (fun hd hhd => by cases hhd) rfl
    (fun f hf => by
      rw [List.mem_singleton] at hf
      rw [hf]
      rfl) rfl (by decide)

/-- C6: Anonymous fallback — for an uncached host whose scan is reached, if
every configured provider answers "no credential" with a nil error (vacuously
so for an empty provider list), `Resolve` returns the no-credential sentinel
with a nil error and creates no cache entry for the host. -/
theorem anonymous_fallback (opt : Options) (ctx : Ctx) (h : String)
    (hmiss : lookupCache opt.credentialsFuncsCache h = none)
    (hlogin : ∀ hd, opt.autoLoginHandler = some hd → hd.login ctx h = none)
    (hall : ∀ f ∈ opt.credentialsFuncs, f ctx h = (EmptyCredential, none)) :
    (credentialCallback opt ctx h).cred = EmptyCredential ∧
    (credentialCallback opt ctx h).err = none ∧
    (credentialCallback opt ctx h).cache = opt.credentialsFuncsCache ∧
    lookupCache (credentialCallback opt ctx h).cache h = none := by
  rw [credentialCallback_scan opt ctx h hmiss hlogin]
  unfold scanAndCache
  rw [scanProviders_all_empty ctx h opt.credentialsFuncs 0 hall]
  exact ⟨rfl, rfl, rfl, hmiss⟩

/-- Witness for C6: the client with an empty provider list resolves "x.io" to
the empty credential with a nil error and an empty cache. -/
theorem anonymous_fallback_witness :
    (credentialCallback defaultOptions witCtx "x.io").cred = EmptyCredential ∧
    (credentialCallback defaultOptions witCtx "x.io").err = none ∧
    (credentialCallback defaultOptions witCtx "x.io").cache =
      defaultOptions.credentialsFuncsCache ∧
    lookupCache (credentialCallback defaultOptions witCtx "x.io").cache "x.io" = none :=
  anonymous_fallback defaultOptions witCtx "x.io" rfl
    (fun hd hhd => by cases hhd) (fun f hf => by cases hf)

/-- C7: Cache invariant — starting from the empty cache built by `NewClient`,
after any sequence of `Resolve` calls: (a) every cache entry maps a host `h`
to a provider that is the configured provider at the recorded position and
that returned a non-empty credential with a nil error for `h` at some call of
the sequence for `h`; (b) at most one entry exists per host; (c) entries are
never removed: whatever an earlier part of the sequence cached for a host is
still cached, unchanged, at the end. -/
theorem cache_invariant (funcs : List Provider) (handler : Option AutoLoginHandler)
    (tc : Option TokenCache) (ins : Bool) (opt0 : Options)
    (calls early late : List (Ctx × String))
    (hopt0 : opt0 = { credentialsFuncsCache := []
                      credentialsFuncs := funcs
                      autoLoginHandler := handler
                      clientTokenCache := tc
                      insecure := ins })
    (hsplit : calls = early ++ late) :
    (∀ e ∈ (runResolves opt0 calls).credentialsFuncsCache,
      funcs.get? e.2.1 = some e.2.2 ∧
      ∃ c ∈ calls, c.2 = e.1 ∧ (e.2.2 c.1 e.1).2 = none ∧
        (e.2.2 c.1 e.1).1 ≠ EmptyCredential) ∧
    ((runResolves opt0 calls).credentialsFuncsCache.map (fun e => e.1)).Nodup ∧
    (∀ h x, lookupCache (runResolves opt0 early).credentialsFuncsCache h = some x →
      lookupCache (runResolves opt0 calls).credentialsFuncsCache h = some x) := by
  subst hopt0
  refine ⟨?_, ?_, ?_⟩
  · intro e he
    rcases runResolves_mem_cache calls _ e he with h1 | ⟨c, hc, hhost, hget, hnone, hne⟩
    · cases h1
    · exact ⟨hget, c, hc, hhost, hnone, hne⟩
  · exact runResolves_keys_nodup calls _ (by simp)
  · intro h x hx
    rw [hsplit, runResolves_append]
    exact runResolves_lookup_mono x h late _ hx

/-- Witness for C7: the Scenario-A client after resolving "reg.example.com"
once and "y.io" twice satisfies the invariant conclusions. -/
theorem cache_invariant_witness :
    (∀ e ∈ (runResolves witOptA
        [(witCtx, "reg.example.com"), (witCtx, "y.io"), (witCtx, "y.io")]).credentialsFuncsCache,
      [witNoneProvider, witTokenProvider].get? e.2.1 = some e.2.2 ∧
      ∃ c ∈ [(witCtx, "reg.example.com"), (witCtx, "y.io"), (witCtx, "y.io")],
        c.2 = e.1 ∧ (e.2.2 c.1 e.1).2 = none ∧ (e.2.2 c.1 e.1).1 ≠ EmptyCredential) ∧
    ((runResolves witOptA
        [(witCtx, "reg.example.com"), (witCtx, "y.io"), (witCtx, "y.io")]).credentialsFuncsCache.map
      (fun e => e.1)).Nodup ∧
    (∀ h x, lookupCache (runResolves witOptA
        [(witCtx, "reg.example.com")]).credentialsFuncsCache h = some x →
      lookupCache (runResolves witOptA
        [(witCtx, "reg.example.com"), (witCtx, "y.io"), (witCtx, "y.io")]).credentialsFuncsCache h =
        some x) :=
  cache_invariant [witNoneProvider, witTokenProvider] none none false witOptA
    [(witCtx, "reg.example.com"), (witCtx, "y.io"), (witCtx, "y.io")]
    [(witCtx, "reg.example.com")] [(witCtx, "y.io"), (witCtx, "y.io")] rfl rfl

/-- C2: the claim that the read-check-write sequence on the per-host provider
cache is serialized by a mutual-exclusion mechanism fails on the code:
`client.go` contains no synchronization primitive, so every run of the
`Credential` callback performs its accesses to the shared
`CredentialsFuncsCache` map (the initial read, and the write on a successful
scan) with no lock ever held or even present in its action trace. -/
theorem resolve_cache_access_unsynchronized (opt : Options) (ctx : Ctx) (reg : String) :
    CacheAction.lockMu ∉ (credentialCallback opt ctx reg).actions ∧
    CacheAction.unlockMu ∉ (credentialCallback opt ctx reg).actions ∧
    accessesLocked (credentialCallback opt ctx reg).actions 0 = false := by
  rcases credentialCallback_actions opt ctx reg with h1 | h2
  · rw [h1]
    refine ⟨by simp, by simp, ?_⟩
    simp [accessesLocked, CacheAction.isMapAccess]
  · rw [h2]
    refine ⟨by simp, by simp, ?_⟩
    simp [accessesLocked, CacheAction.isMapAccess]

/-- C8: Insecure is explicit opt-in only — the client built by `NewClient`
skips TLS certificate verification exactly when the applied options leave the
`Insecure` flag set; with no options (the default) verification is performed;
`WithInsecure` is the only option constructor that sets the flag (every other
constructor leaves it untouched), and applying `WithInsecure` makes the built
client skip verification. -/
theorem insecure_explicit_opt_in (options : List (Options → Options))
    (hd : AutoLoginHandler) (oauthCred gcpCred storeCred : Provider)
    (credPtr : Nat) (tc : TokenCache) :
    skipsTLSVerify (NewClient options) = (applyOptions options).insecure ∧
    skipsTLSVerify (NewClient []) = false ∧
    (∀ s, (WithInsecure s).insecure = true) ∧
    (∀ s, (WithAutoLogin hd s).insecure = s.insecure) ∧
    (∀ s, (WithOAuthCredentials oauthCred s).insecure = s.insecure) ∧
    (∀ s, (WithGcpCredentials gcpCred s).insecure = s.insecure) ∧
    (∀ s, (WithCredentials credPtr s).insecure = s.insecure) ∧
    (∀ s, (WithStore storeCred s).insecure = s.insecure) ∧
    (∀ s, (WithClientTokenCache tc s).insecure = s.insecure) ∧
    skipsTLSVerify (NewClient (options ++ [WithInsecure])) = true := by
  refine ⟨?_, rfl, fun s => rfl, fun s => rfl, fun s => rfl, fun s => rfl,
    fun s => rfl, fun s => rfl, fun s => rfl, ?_⟩
  · cases hins : (applyOptions options).insecure with
    | false => simp [NewClient, skipsTLSVerify, hins]
    | true => simp [NewClient, skipsTLSVerify, hins]
  · have happ : applyOptions (options ++ [WithInsecure]) =
        WithInsecure (applyOptions options) := by
      unfold applyOptions
      rw [List.foldl_append]
      rfl
    simp [NewClient, skipsTLSVerify, happ, WithInsecure]

/-- C9: Factory static configuration — for every option list, the client built
by `NewClient` identifies itself as "falcoctl" and its transport is configured
with 30s connect timeout, 30s keep-alive, 90s idle-connection timeout, 10s TLS
handshake timeout, 1s expect-continue timeout, at most 100 idle connections,
and HTTP/2 preference enabled. -/
theorem factory_static_config (options : List (Options → Options)) :
    (NewClient options).userAgent = "falcoctl" ∧
    (NewClient options).transport.dialTimeoutSec = 30 ∧
    (NewClient options).transport.dialKeepAliveSec = 30 ∧
    (NewClient options).transport.idleConnTimeoutSec = 90 ∧
    (NewClient options).transport.tlsHandshakeTimeoutSec = 10 ∧
    (NewClient options).transport.expectContinueTimeoutSec = 1 ∧
    (NewClient options).transport.maxIdleConns = 100 ∧
    (NewClient options).transport.forceAttemptHTTP2 = true :=
  ⟨rfl, rfl, rfl, rfl, rfl, rfl, rfl, rfl⟩

/-- C10: the static provider installed by `WithCredentials` never errors and
reads its credential at call time — `WithCredentials credPtr` appends exactly
the closure `staticCredFunc credPtr`; for every context and host that closure
returns a nil error together with the value the captured pointer holds in the
call-time context (`ctx.heap credPtr`), so a scan reaching it can never fail
at it; and when that value is the empty credential the scan moves past it to
the remaining providers. -/
theorem static_provider_call_time (credPtr : Nat) (ctx : Ctx) (host : String)
    (opt : Options) :
    (WithCredentials credPtr opt).credentialsFuncs =
      opt.credentialsFuncs ++ [staticCredFunc credPtr] ∧
    staticCredFunc credPtr ctx host = (ctx.heap credPtr, none) ∧
    (staticCredFunc credPtr ctx host).2 = none ∧
    (ctx.heap credPtr = EmptyCredential → ∀ (i : Nat) (rest : List Provider),
      scanProviders ctx host i (staticCredFunc credPtr :: rest) =
        ((scanProviders ctx host (i + 1) rest).1,
         (scanProviders ctx host (i + 1) rest).2.1,
         i :: (scanProviders ctx host (i + 1) rest).2.2)) := by
  refine ⟨rfl, rfl, rfl, fun hemp i rest => ?_⟩
  exact scanProviders_cons_empty ctx host i (staticCredFunc credPtr) rest
    (by simp [staticCredFunc, hemp])

/-- Witness for C10: with the heap holding the empty credential at pointer 0,
the installed static provider returns `(EmptyCredential, none)` and a scan
over `[staticCredFunc 0, witTokenProvider]` continues past it and succeeds
with the token provider. -/
theorem static_provider_call_time_witness :
    (WithCredentials 0 defaultOptions).credentialsFuncs = [staticCredFunc 0] ∧
    staticCredFunc 0 witCtx "x.io" = (EmptyCredential, none) ∧
    scanProviders witCtx "x.io" 0 [staticCredFunc 0, witTokenProvider] =
      ((witCredT1, none), some (1, witTokenProvider), [0, 1]) := by
  obtain ⟨h1, h2, _, h4⟩ := static_provider_call_time 0 witCtx "x.io" defaultOptions
  refine ⟨by simpa using h1, h2, ?_⟩
  rw [h4 rfl 0 [witTokenProvider]]
  rfl
